import Mathlib

/-
Verification of the saas-notes-backend data model and operations.
Each definition is a shallow embedding of the corresponding JavaScript
function or Mongoose schema; file/line references point into the repository.
Machine integers are modelled as Int/Nat (JS numbers in these code paths are
small integers), timestamps as Nat milliseconds, Mongo ObjectIds as Nat.
-/

namespace SaasNotes

/-- Subscription plans, from utils/constants.js SUBSCRIPTION_PLANS. -/
inductive Plan where
  | free
  | pro
deriving DecidableEq, Repr

/-- User roles, from utils/constants.js ROLES. -/
inductive RoleName where
  | admin
  | member
deriving DecidableEq, Repr

/-- Payment status, from utils/constants.js PAYMENT_STATUS. -/
inductive PaymentStatus where
  | pending
  | success
  | failed
  | refunded
deriving DecidableEq, Repr

/-- Subscription status enum, from models/Subscription (src/unnamed/part_003). -/
inductive SubStatus where
  | active
  | inactive
  | cancelled
  | expired
deriving DecidableEq, Repr

/-- The maxNotes entry of utils/constants.js SUBSCRIPTION_LIMITS:
free has maxNotes 20, pro has maxNotes -1 (unlimited sentinel). -/
def subscriptionLimitsMaxNotes : Plan → Int
  | .free => 20
  | .pro => -1

/-- The free-plan maxNotes advertised by getSubscriptionPlans
(controllers, GET /subscription/plans): "Up to 3 notes", limits.maxNotes = 3. -/
def plansEndpointFreeMaxNotes : Int := 3

/-- The default of the Account schema limit field (src/unnamed/part_002,
"default: 3, // Free plan limit"); also the literal used by register and
cancelSubscription when (re)setting a free account. -/
def accountFreeLimit : Int := 3

/-- The Account (tenant) document, from the accountSchema in src/unnamed/part_002. -/
structure Account where
  id : Nat
  slug : String
  plan : Plan
  limit : Int
  noteCount : Int
  currentSubscription : Option Nat
  isActive : Bool
  isDeleted : Bool
deriving DecidableEq, Repr

/-- The canCreateNote virtual of the accountSchema: pro accounts always can,
free accounts can while noteCount < this.limit. -/
def Account.canCreateNote (a : Account) : Bool :=
  if a.plan = .pro then true else decide (a.noteCount < a.limit)

/-- Account method incrementNoteCount: this.noteCount += 1. -/
def Account.incrementNoteCount (a : Account) : Account :=
  { a with noteCount := a.noteCount + 1 }

/-- Account method decrementNoteCount: decrements only when noteCount > 0,
otherwise resolves without change. -/
def Account.decrementNoteCount (a : Account) : Account :=
  if a.noteCount > 0 then { a with noteCount := a.noteCount - 1 } else a

/-- Account method upgradeToPro: plan := pro, limit := -1 (unlimited). -/
def Account.upgradeToPro (a : Account) : Account :=
  { a with plan := .pro, limit := -1 }

/-- The account created by POST /auth/register (authController in
src/unnamed/part_004): plan free, limit 3, noteCount 0, schema defaults for
the remaining fields. -/
def registerAccount (id : Nat) (slug : String) : Account :=
  { id := id, slug := slug, plan := .free, limit := accountFreeLimit,
    noteCount := 0, currentSubscription := none,
    isActive := true, isDeleted := false }

/-- Outcome of the checkNoteLimit middleware. quotaExceeded carries the 403
payload fields currentPlan, noteCount and maxNotes (upgradeRequired is the
constant true in the source). -/
inductive GateResult where
  | pass
  | quotaExceeded (currentPlan : Plan) (noteCount : Int) (maxNotes : Int)
deriving DecidableEq, Repr

/-- The checkNoteLimit middleware (src/unnamed/part_000): pro passes
unconditionally; otherwise the limit is looked up in SUBSCRIPTION_LIMITS
(the lookup is total over the plan enum, so the "invalid plan" branch of the
source is unreachable) and the request fails with 403 when
noteCount >= maxNotes. -/
def checkNoteLimit (account : Account) : GateResult :=
  if account.plan = .pro then .pass
  else
    let maxNotes := subscriptionLimitsMaxNotes account.plan
    if account.noteCount ≥ maxNotes then
      .quotaExceeded account.plan account.noteCount maxNotes
    else .pass

/-- One request against the note counter of an account: note creation
increments it, note deletion decrements it (clamped), as invoked by
createNote and deleteNote in controllers/noteController.js. -/
inductive CountOp where
  | create
  | delete
deriving DecidableEq, Repr

/-- Effect of one note create/delete on the account counter. -/
def applyCountOp (a : Account) : CountOp → Account
  | .create => a.incrementNoteCount
  | .delete => a.decrementNoteCount

/-- C9, claim as stated: increment adds one; decrement subtracts one only when
positive, else leaves the counter; hence any op sequence preserves 0 ≤ noteCount. -/
theorem noteCount_never_negative (a : Account) (ops : List CountOp)
    (h : 0 ≤ a.noteCount) :
    (∀ b : Account, b.incrementNoteCount.noteCount = b.noteCount + 1) ∧
    (∀ b : Account, 0 < b.noteCount →
        b.decrementNoteCount.noteCount = b.noteCount - 1) ∧
    (∀ b : Account, b.noteCount ≤ 0 → b.decrementNoteCount = b) ∧
    0 ≤ (ops.foldl applyCountOp a).noteCount := by
  refine ⟨fun b => rfl, fun b hb => by simp [Account.decrementNoteCount, hb],
    fun b hb => by simp [Account.decrementNoteCount]; omega, ?_⟩
  induction ops generalizing a with
  | nil => simpa using h
  | cons op rest ih =>
    refine ih (applyCountOp a op) ?_
    cases op with
    | create =>
      simp only [applyCountOp, Account.incrementNoteCount]
      omega
    | delete =>
      simp only [applyCountOp, Account.decrementNoteCount]
      split
      · simp only [Account.noteCount]
        omega
      · omega

/-- Witness for C9 at a concrete account and op sequence. -/
theorem noteCount_never_negative_witness :
    0 ≤ ((([CountOp.delete, .create, .delete, .delete, .create]).foldl applyCountOp
        (registerAccount 1 "acme")).noteCount) :=
  (noteCount_never_negative (registerAccount 1 "acme")
    [CountOp.delete, .create, .delete, .delete, .create] (by decide)).2.2.2

/-- C3, code bug exhibited: the registered free account carries limit 3 (and
its own canCreateNote virtual plus the advertised free plan say the cap is 3),
yet the checkNoteLimit gate compares against SUBSCRIPTION_LIMITS.free.maxNotes
= 20 and passes a free account that already reached its attached cap. -/
theorem checkNoteLimit_ignores_account_limit :
    checkNoteLimit { registerAccount 1 "acme" with noteCount := 3 } = .pass ∧
    ({ registerAccount 1 "acme" with noteCount := 3 } : Account).limit = 3 ∧
    ({ registerAccount 1 "acme" with noteCount := 3 } : Account).canCreateNote = false ∧
    plansEndpointFreeMaxNotes = 3 ∧
    subscriptionLimitsMaxNotes .free = 20 ∧
    checkNoteLimit { registerAccount 1 "acme" with noteCount := 20 } =
      .quotaExceeded .free 20 20 := by
  refine ⟨?_, rfl, ?_, rfl, rfl, ?_⟩ <;> decide

/-- Model of the JavaScript String.prototype.toLowerCase primitive
(structurally recursive so that concrete instances evaluate). -/
def toLowerStr (s : String) : String :=
  ⟨s.data.map Char.toLower⟩

/-- Model of the JavaScript String.prototype.trim primitive: drop leading and
trailing whitespace (structurally recursive so that concrete instances
evaluate). -/
def trimStr (s : String) : String :=
  ⟨((s.data.dropWhile Char.isWhitespace).reverse.dropWhile Char.isWhitespace).reverse⟩

/-- The Tag document, from the tagSchema (src/src/models/User.js, second
schema): account reference and a lowercase, trimmed tagName. -/
structure Tag where
  id : Nat
  account : Nat
  tagName : String
deriving DecidableEq, Repr

/-- A fresh id for a newly created tag document: one above every id in the
store (models the store allocating an unused ObjectId). -/
def freshTagId (tags : List Tag) : Nat :=
  tags.foldr (fun t m => max t.id m) 0 + 1

/-- Tag.findOrCreate static (src/src/models/User.js): normalizes the name via
toLowerCase + trim, returns the account's tag with that name if present, and
creates it only if absent. -/
def Tag.findOrCreate (tags : List Tag) (account : Nat) (tagName : String) :
    Tag × List Tag :=
  let normalized := trimStr (toLowerStr tagName)
  match tags.find? (fun t => decide (t.account = account ∧ t.tagName = normalized)) with
  | some t => (t, tags)
  | none =>
    let t : Tag := { id := freshTagId tags, account := account, tagName := normalized }
    (t, tags ++ [t])

/-- One iteration of the tag loop in createNote (controllers/noteController.js
lines 22-31; updateNote repeats it): if the tag string has nonempty trim,
find-or-create the account's tag named by the trimmed string and push its id
onto tagIds. -/
def tagLoopStep (account : Nat) (acc : List Nat × List Tag) (tagName : String) :
    List Nat × List Tag :=
  if trimStr tagName ≠ "" then
    let r := Tag.findOrCreate acc.2 account (trimStr tagName)
    (acc.1 ++ [r.1.id], r.2)
  else acc

/-- The whole tag loop of createNote: one push per input element, duplicate
ids included. -/
def processTags (account : Nat) (tagNames : List String) (tags : List Tag) :
    List Nat × List Tag :=
  tagNames.foldl (tagLoopStep account) ([], tags)

/-- Appending one element to a list in which nothing satisfies the predicate
makes find? look only at that element. -/
theorem find?_append_singleton {α : Type} (p : α → Bool) (l : List α) (x : α)
    (h : ∀ y ∈ l, ¬ p y = true) :
    (l ++ [x]).find? p = if p x then some x else none := by
  induction l with
  | nil => cases hpx : p x <;> simp [List.find?_cons, hpx]
  | cons a l ih =>
    have ha : ¬ p a = true := h a (by simp)
    cases hpa : p a with
    | true => exact absurd hpa ha
    | false =>
      simp only [List.cons_append, List.find?_cons, hpa]
      exact ih (fun y hy => h y (by simp [hy]))

/-- A loop iteration whose input normalizes to a tag name already in the store
finds that tag and only appends its id. -/
theorem tagLoopStep_found (account : Nat) (w : String) (t : Tag) (s : String)
    (ids : List Nat) (tags : List Tag)
    (hs : trimStr s ≠ "") (hw : trimStr (toLowerStr (trimStr s)) = w)
    (hfind : tags.find? (fun x => decide (x.account = account ∧ x.tagName = w)) = some t) :
    tagLoopStep account (ids, tags) s = (ids ++ [t.id], tags) := by
  simp only [tagLoopStep, if_pos hs, Tag.findOrCreate, hw, hfind]

/-- Once the normalized tag exists in the store, the rest of the createNote
tag loop finds it at every iteration and only appends its id. -/
theorem processTags_all_found (account : Nat) (w : String) (t : Tag)
    (inputs : List String) (tags : List Tag)
    (hfind : tags.find? (fun x => decide (x.account = account ∧ x.tagName = w)) = some t) :
    (∀ s ∈ inputs, trimStr s ≠ "" ∧ trimStr (toLowerStr (trimStr s)) = w) →
    ∀ ids : List Nat,
      inputs.foldl (tagLoopStep account) (ids, tags) =
        (ids ++ List.replicate inputs.length t.id, tags) := by
  induction inputs with
  | nil => intro _ ids; simp
  | cons s rest ih =>
    intro hinp ids
    obtain ⟨hs, hw⟩ := hinp s (by simp)
    rw [List.foldl_cons, tagLoopStep_found account w t s ids tags hs hw hfind,
      ih (fun x hx => hinp x (by simp [hx])) (ids ++ [t.id])]
    simp [List.replicate_succ]

/-- C8 counterexample: creating a note with tags ["Work", " work ", "WORK"]
from an empty tag store creates exactly one Tag "work", but its id is pushed
onto the note's tag array three times, not once. -/
theorem tag_attached_once_counterexample :
    (processTags 1 ["Work", " work ", "WORK"] []).2 =
      [{ id := 1, account := 1, tagName := "work" }] ∧
    (processTags 1 ["Work", " work ", "WORK"] []).1 = [1, 1, 1] ∧
    ¬ (processTags 1 ["Work", " work ", "WORK"] []).1.length = 1 := by
  refine ⟨by decide, by decide, by decide⟩

/-- C8 as amended: for any nonempty batch of tag strings that all normalize to
the same name w absent from the tenant's tag set, exactly one Tag named w is
created (find-or-create is idempotent per normalized name and account), and
that tag's id is attached once per input occurrence — not deduplicated to a
single attachment. -/
theorem tag_findOrCreate_idempotent (account : Nat) (w : String)
    (inputs : List String) (tags : List Tag) (hne : inputs ≠ [])
    (hinp : ∀ s ∈ inputs, trimStr s ≠ "" ∧ trimStr (toLowerStr (trimStr s)) = w)
    (habsent : ∀ t ∈ tags, ¬ (t.account = account ∧ t.tagName = w)) :
    (processTags account inputs tags).2 =
      tags ++ [({ id := freshTagId tags, account := account, tagName := w } : Tag)] ∧
    (processTags account inputs tags).1 =
      List.replicate inputs.length (freshTagId tags) := by
  cases inputs with
  | nil => exact absurd rfl hne
  | cons s rest =>
    obtain ⟨hs, hw⟩ := hinp s (by simp)
    have hnone : tags.find? (fun x => decide (x.account = account ∧ x.tagName = w)) = none := by
      rw [List.find?_eq_none]
      intro x hx
      simpa using habsent x hx
    have hstep : tagLoopStep account ([], tags) s =
        ([freshTagId tags],
          tags ++ [({ id := freshTagId tags, account := account, tagName := w } : Tag)]) := by
      simp only [tagLoopStep, if_pos hs, Tag.findOrCreate, hw, hnone, List.nil_append]
    have hfound : (tags ++ [({ id := freshTagId tags, account := account, tagName := w } : Tag)]).find?
        (fun x => decide (x.account = account ∧ x.tagName = w)) =
        some ({ id := freshTagId tags, account := account, tagName := w } : Tag) := by
      rw [find?_append_singleton _ _ _ (by
        intro y hy
        simpa using habsent y hy)]
      simp
    have hrest := processTags_all_found account w
      ({ id := freshTagId tags, account := account, tagName := w } : Tag) rest
      (tags ++ [({ id := freshTagId tags, account := account, tagName := w } : Tag)])
      hfound (fun x hx => hinp x (by simp [hx]))
      [freshTagId tags]
    simp only [processTags, List.foldl_cons, hstep, hrest]
    simp [List.replicate_succ]

/-- Witness for C8's amended theorem at the scenario input from the spec. -/
theorem tag_findOrCreate_idempotent_witness :
    (processTags 1 ["Work", " work ", "WORK"] []).2 =
      [{ id := 1, account := 1, tagName := "work" }] ∧
    (processTags 1 ["Work", " work ", "WORK"] []).1 = List.replicate 3 1 := by
  have h := tag_findOrCreate_idempotent 1 "work" ["Work", " work ", "WORK"] []
    (by decide) (by decide) (by simp)
  simpa using h

/-- The Note document, from src/src/models/Note.js: account and owning user
references, title, description, tag ids, soft-delete flag. -/
structure Note where
  id : Nat
  account : Nat
  user : Nat
  title : String
  description : String
  tags : List Nat
  isDeleted : Bool
deriving DecidableEq, Repr

/-- The query filter accumulated by the middleware chain: ensureTenantIsolation
sets the account key; requireOwnershipOrAdmin may add the user key. -/
structure TenantFilter where
  account : Nat
  user : Option Nat
deriving DecidableEq, Repr

/-- The authenticated request context bound by the authenticate middleware:
req.user._id, req.user.account._id (= req.account._id), and the user's role. -/
structure ReqCtx where
  userId : Nat
  accountId : Nat
  role : RoleName
deriving DecidableEq, Repr

/-- ensureTenantIsolation middleware (src/unnamed/part_000, lines 426-437):
req.tenantFilter := \x7b account: req.user.account._id \x7d. -/
def ensureTenantIsolation (ctx : ReqCtx) : TenantFilter :=
  { account := ctx.accountId, user := none }

/-- requireOwnershipOrAdmin middleware (src/unnamed/part_000, lines 221-243):
admins pass the filter through; for non-admins the filter gains
user := req.user._id. -/
def requireOwnershipOrAdmin (ctx : ReqCtx) (tf : TenantFilter) : TenantFilter :=
  if ctx.role = .admin then tf else { tf with user := some ctx.userId }

/-- requireMember middleware: passes iff the role is admin or member — always
true over the closed role enum of this codebase. -/
def requireMember (ctx : ReqCtx) : Bool :=
  decide (ctx.role = .admin ∨ ctx.role = .member)

/-- The user key of the filter applied to a note; an absent key matches all. -/
def TenantFilter.userMatches (tf : TenantFilter) (n : Note) : Bool :=
  tf.user.all (fun u => decide (n.user = u))

/-- The Note.findOne lookup shared by getNoteById, updateNote and deleteNote:
\x7b _id: id, ...tenantFilter, isDeleted: false \x7d. -/
def findNote (notes : List Note) (id : Nat) (tf : TenantFilter) : Option Note :=
  notes.find? (fun n =>
    decide (n.id = id) && decide (n.account = tf.account) && tf.userMatches n &&
      decide (n.isDeleted = false))

/-- The persistent state a note request touches: the tenant's account document
plus the note and tag collections (the latter may also hold other tenants'
documents). -/
structure NotesState where
  account : Account
  notes : List Note
  tags : List Tag
deriving DecidableEq, Repr

/-- A fresh id for a newly created note document (models the store allocating
an unused ObjectId). -/
def freshNoteId (notes : List Note) : Nat :=
  notes.foldr (fun n m => max n.id m) 0 + 1

/-- Outcome of POST /notes: the checkNoteLimit gate's 403, the controller's
400 for a missing title, or 201 with the created note. -/
inductive CreateResult where
  | quotaExceeded
  | titleRequired
  | created (noteId : Nat)
deriving DecidableEq, Repr

/-- createNote controller (controllers/noteController.js lines 11-55) behind
the checkNoteLimit gate of the POST /notes route: validates the title,
processes tags, stores the note scoped to req.account._id and req.user._id,
and increments the account's note count. -/
def routeCreateNote (ctx : ReqCtx) (st : NotesState) (title description : String)
    (tagNames : List String) : CreateResult × NotesState :=
  match checkNoteLimit st.account with
  | .quotaExceeded _ _ _ => (.quotaExceeded, st)
  | .pass =>
    if title = "" then (.titleRequired, st)
    else
      let pr := processTags ctx.accountId tagNames st.tags
      let note : Note :=
        { id := freshNoteId st.notes, account := ctx.accountId,
          user := ctx.userId, title := trimStr title,
          description := trimStr description, tags := pr.1, isDeleted := false }
      (.created note.id,
        { account := st.account.incrementNoteCount,
          notes := st.notes ++ [note], tags := pr.2 })

/-- Outcome of PUT/DELETE /notes/:id as the controllers report it: 200, 404
(Note not found), the explicit 403 ownership rejection, or 400 (empty title,
update only). -/
inductive NoteOpResult where
  | ok (noteId : Nat)
  | notFound
  | forbiddenOwnership
  | emptyTitle
deriving DecidableEq, Repr

/-- The field-update tail of updateNote (lines 221-251): replace provided
fields only, re-resolve tags when provided, save the note back. -/
def finishUpdate (ctx : ReqCtx) (st : NotesState) (note : Note)
    (newTitle : Option String) (description : Option String)
    (tagNames : Option (List String)) : NoteOpResult × NotesState :=
  let note1 := match newTitle with
    | some t => { note with title := t }
    | none => note
  let note2 := match description with
    | some d => { note1 with description := trimStr d }
    | none => note1
  let pr := match tagNames with
    | some ts => processTags ctx.accountId ts st.tags
    | none => ([], st.tags)
  let note3 := match tagNames with
    | some _ => { note2 with tags := pr.1 }
    | none => note2
  (.ok note3.id,
    { st with
      notes := st.notes.map (fun n => if n.id = note.id then note3 else n),
      tags := pr.2 })

/-- updateNote controller (lines 195-270): tenant-filtered lookup, explicit
ownership check for non-admins, title validation, then the field updates. -/
def updateNote (ctx : ReqCtx) (st : NotesState) (id : Nat) (tf : TenantFilter)
    (title description : Option String) (tagNames : Option (List String)) :
    NoteOpResult × NotesState :=
  match findNote st.notes id tf with
  | none => (.notFound, st)
  | some note =>
    if ctx.role ≠ .admin ∧ note.user ≠ ctx.userId then (.forbiddenOwnership, st)
    else
      match title with
      | some t =>
        if trimStr t = "" then (.emptyTitle, st)
        else finishUpdate ctx st note (some (trimStr t)) description tagNames
      | none => finishUpdate ctx st note none description tagNames

/-- deleteNote controller (lines 276-317): tenant-filtered lookup, explicit
ownership check for non-admins, soft delete, count decrement. -/
def deleteNote (ctx : ReqCtx) (st : NotesState) (id : Nat) (tf : TenantFilter) :
    NoteOpResult × NotesState :=
  match findNote st.notes id tf with
  | none => (.notFound, st)
  | some note =>
    if ctx.role ≠ .admin ∧ note.user ≠ ctx.userId then (.forbiddenOwnership, st)
    else
      (.ok note.id,
        { st with
          notes := st.notes.map (fun n =>
            if n.id = note.id then { n with isDeleted := true } else n),
          account := st.account.decrementNoteCount })

/-- getNoteById controller (lines 150-189): the tenant-filtered lookup; none
is the 404 response. -/
def getNoteById (notes : List Note) (id : Nat) (tf : TenantFilter) : Option Note :=
  findNote notes id tf

/-- getNotes controller (lines 61-144): tenant filter plus isDeleted false,
optional text search (the text engine is external and modelled as a
predicate), optional tag filter resolved against the tenant's tags — matching
nothing when no tag name resolves — and skip/take pagination. Sorting by
timestamp is not modelled; the model keeps store order. -/
def getNotes (notes : List Note) (tags : List Tag) (tf : TenantFilter)
    (searchMatch : Option (Note → Bool)) (tagNames : Option (List String))
    (page limit : Nat) : List Note :=
  let tagPred : Note → Bool :=
    match tagNames with
    | none => fun _ => true
    | some names =>
      let tagObjects := tags.filter (fun t =>
        decide (t.account = tf.account) && (names.map toLowerStr).contains t.tagName)
      if tagObjects.isEmpty then fun _ => false
      else fun n => tagObjects.any (fun t => n.tags.contains t.id)
  let searchPred : Note → Bool :=
    match searchMatch with
    | none => fun _ => true
    | some p => p
  (((notes.filter (fun n =>
      decide (n.account = tf.account) && tf.userMatches n &&
        decide (n.isDeleted = false) && searchPred n && tagPred n)).drop
    ((page - 1) * limit)).take limit)

/-- getMyNotes controller (lines 323-412): always scoped to the caller's
account and user id; when a tag filter is given and no tag name resolves, the
empty page is returned directly. -/
def getMyNotes (ctx : ReqCtx) (notes : List Note) (tags : List Tag)
    (searchMatch : Option (Note → Bool)) (tagNames : Option (List String))
    (page limit : Nat) : List Note :=
  let searchPred : Note → Bool :=
    match searchMatch with
    | none => fun _ => true
    | some p => p
  let base : Note → Bool := fun n =>
    decide (n.account = ctx.accountId) && decide (n.user = ctx.userId) &&
      decide (n.isDeleted = false) && searchPred n
  match tagNames with
  | some names =>
    let tagObjects := tags.filter (fun t =>
      decide (t.account = ctx.accountId) && (names.map toLowerStr).contains t.tagName)
    if tagObjects.isEmpty then []
    else
      (((notes.filter (fun n =>
          base n && tagObjects.any (fun t => n.tags.contains t.id))).drop
        ((page - 1) * limit)).take limit)
  | none =>
    (((notes.filter base).drop ((page - 1) * limit)).take limit)

/-- The filter produced by the GET/PUT/DELETE /notes/:id middleware chain of
routes/notes.js: authenticate → ensureTenantIsolation → checkAccountStatus →
requireMember → requireOwnershipOrAdmin. -/
def notesIdRouteFilter (ctx : ReqCtx) : TenantFilter :=
  requireOwnershipOrAdmin ctx (ensureTenantIsolation ctx)

/-- GET /notes/:id through its middleware chain. -/
def routeGetNoteById (ctx : ReqCtx) (notes : List Note) (id : Nat) : Option Note :=
  getNoteById notes id (notesIdRouteFilter ctx)

/-- PUT /notes/:id through its middleware chain. -/
def routeUpdateNote (ctx : ReqCtx) (st : NotesState) (id : Nat)
    (title description : Option String) (tagNames : Option (List String)) :
    NoteOpResult × NotesState :=
  updateNote ctx st id (notesIdRouteFilter ctx) title description tagNames

/-- DELETE /notes/:id through its middleware chain. -/
def routeDeleteNote (ctx : ReqCtx) (st : NotesState) (id : Nat) :
    NoteOpResult × NotesState :=
  deleteNote ctx st id (notesIdRouteFilter ctx)

/-- GET /notes through its middleware chain (no ownership stage on this
route). -/
def routeGetNotes (ctx : ReqCtx) (st : NotesState)
    (searchMatch : Option (Note → Bool)) (tagNames : Option (List String))
    (page limit : Nat) : List Note :=
  getNotes st.notes st.tags (ensureTenantIsolation ctx) searchMatch tagNames page limit

/-- Unpacking a successful tenant-filtered note lookup: the note is stored,
has the requested id, belongs to the filter's account, matches the filter's
user key and is not soft-deleted. -/
theorem findNote_some (notes : List Note) (id : Nat) (tf : TenantFilter) (n : Note)
    (h : findNote notes id tf = some n) :
    n ∈ notes ∧ n.id = id ∧ n.account = tf.account ∧
      (∀ u, tf.user = some u → n.user = u) ∧ n.isDeleted = false := by
  have hmem := List.mem_of_find?_eq_some h
  have hp := List.find?_some h
  simp only [Bool.and_eq_true, decide_eq_true_eq] at hp
  obtain ⟨⟨⟨h1, h2⟩, h3⟩, h4⟩ := hp
  refine ⟨hmem, h1, h2, ?_, h4⟩
  intro u hu
  simp only [TenantFilter.userMatches, hu, Option.all_some, decide_eq_true_eq] at h3
  exact h3

/-- A tenant-filtered note lookup fails when no note passes the filter. -/
theorem findNote_eq_none (notes : List Note) (id : Nat) (tf : TenantFilter)
    (h : ∀ n ∈ notes, n.id = id → n.account = tf.account →
      tf.userMatches n = true → n.isDeleted = false → False) :
    findNote notes id tf = none := by
  rw [findNote, List.find?_eq_none]
  intro n hn hx
  simp only [Bool.and_eq_true, decide_eq_true_eq] at hx
  exact h n hn hx.1.1.1 hx.1.1.2 hx.1.2 hx.2

/-- Distinct stored ids make the id projection injective on the stored notes. -/
theorem nodup_map_id_inj (l : List Note) (h : (l.map Note.id).Nodup) :
    ∀ x ∈ l, ∀ y ∈ l, x.id = y.id → x = y := by
  intro x hx y hy hxy
  exact List.inj_on_of_nodup_map h hx hy hxy

/-- The /notes/:id chain always filters by the caller's account. -/
theorem notesIdRouteFilter_account (ctx : ReqCtx) :
    (notesIdRouteFilter ctx).account = ctx.accountId := by
  rw [notesIdRouteFilter, requireOwnershipOrAdmin]
  split <;> rfl

/-- For non-admins the /notes/:id chain also filters by the caller's user id. -/
theorem notesIdRouteFilter_user (ctx : ReqCtx) (h : ctx.role ≠ .admin) :
    (notesIdRouteFilter ctx).user = some ctx.userId := by
  rw [notesIdRouteFilter, requireOwnershipOrAdmin, if_neg h]

/-- Every note in the post-state of the update tail is either an untouched
stored note or carries the account of the note being updated. -/
theorem finishUpdate_notes_scope (ctx : ReqCtx) (st : NotesState) (note : Note)
    (newTitle description : Option String) (tagNames : Option (List String)) :
    ∀ n ∈ (finishUpdate ctx st note newTitle description tagNames).2.notes,
      n ∈ st.notes ∨ n.account = note.account := by
  cases newTitle <;> cases description <;> cases tagNames
  all_goals
    intro n hn
    simp only [finishUpdate] at hn
    obtain ⟨m, hm, hfm⟩ := List.mem_map.mp hn
    by_cases hid : m.id = note.id
    · right
      rw [if_pos hid] at hfm
      subst hfm
      rfl
    · left
      rw [if_neg hid] at hfm
      subst hfm
      exact hm

/-- The update tail never reports the ownership rejection. -/
theorem finishUpdate_fst (ctx : ReqCtx) (st : NotesState) (note : Note)
    (newTitle description : Option String) (tagNames : Option (List String)) :
    (finishUpdate ctx st note newTitle description tagNames).1 ≠ .forbiddenOwnership := by
  simp [finishUpdate]

/-- Every note in the post-state of updateNote is an untouched stored note or
belongs to the filter's account. -/
theorem updateNote_notes_scope (ctx : ReqCtx) (st : NotesState) (id : Nat)
    (tf : TenantFilter) (title description : Option String)
    (tagNames : Option (List String)) :
    ∀ n ∈ (updateNote ctx st id tf title description tagNames).2.notes,
      n ∈ st.notes ∨ n.account = tf.account := by
  intro n hn
  simp only [updateNote] at hn
  split at hn
  · exact Or.inl hn
  case _ note hfind =>
    have hacc := (findNote_some _ _ _ _ hfind).2.2.1
    split at hn
    · exact Or.inl hn
    · split at hn
      · split at hn
        · exact Or.inl hn
        · rcases finishUpdate_notes_scope ctx st note _ description tagNames n hn with hmem | heq
          · exact Or.inl hmem
          · exact Or.inr (heq.trans hacc)
      · rcases finishUpdate_notes_scope ctx st note none description tagNames n hn with hmem | heq
        · exact Or.inl hmem
        · exact Or.inr (heq.trans hacc)

/-- Notes of other accounts survive updateNote untouched (stored ids are
distinct, as the store's primary key guarantees). -/
theorem updateNote_preserves_other (ctx : ReqCtx) (st : NotesState) (id : Nat)
    (tf : TenantFilter) (title description : Option String)
    (tagNames : Option (List String))
    (hids : (st.notes.map Note.id).Nodup) :
    ∀ n ∈ st.notes, n.account ≠ tf.account →
      n ∈ (updateNote ctx st id tf title description tagNames).2.notes := by
  intro n hn hacc
  simp only [updateNote]
  split
  · exact hn
  case _ note hfind =>
    obtain ⟨hnotemem, -, hnoteacc, -, -⟩ := findNote_some _ _ _ _ hfind
    have hne : n.id ≠ note.id := by
      intro hid
      exact hacc ((congrArg Note.account (nodup_map_id_inj st.notes hids n hn note hnotemem hid)).trans hnoteacc)
    have hmap : ∀ f : Note → Note, n ∈ st.notes.map (fun m => if m.id = note.id then f m else m) := by
      intro f
      exact List.mem_map.mpr ⟨n, hn, by rw [if_neg hne]⟩
    split
    · exact hn
    · split
      · split
        · exact hn
        · cases description <;> cases tagNames <;>
            simpa only [finishUpdate] using hmap _
      · cases description <;> cases tagNames <;>
          simpa only [finishUpdate] using hmap _

/-- Every note in the post-state of deleteNote is an untouched stored note or
belongs to the filter's account. -/
theorem deleteNote_notes_scope (ctx : ReqCtx) (st : NotesState) (id : Nat)
    (tf : TenantFilter)
    (hids : (st.notes.map Note.id).Nodup) :
    ∀ n ∈ (deleteNote ctx st id tf).2.notes,
      n ∈ st.notes ∨ n.account = tf.account := by
  intro n hn
  cases hfind : findNote st.notes id tf with
  | none =>
    simp only [deleteNote, hfind] at hn
    exact Or.inl hn
  | some note =>
    obtain ⟨hnotemem, -, hnoteacc, -, -⟩ := findNote_some _ _ _ _ hfind
    simp only [deleteNote, hfind] at hn
    by_cases hown : ctx.role ≠ RoleName.admin ∧ note.user ≠ ctx.userId
    · rw [if_pos hown] at hn
      exact Or.inl hn
    · rw [if_neg hown] at hn
      obtain ⟨m, hm, hfm⟩ := List.mem_map.mp hn
      by_cases hid : m.id = note.id
      · right
        rw [if_pos hid] at hfm
        subst hfm
        have : m = note := nodup_map_id_inj st.notes hids m hm note hnotemem hid
        simpa [this] using hnoteacc
      · left
        rw [if_neg hid] at hfm
        subst hfm
        exact hm

/-- Notes of other accounts survive deleteNote untouched. -/
theorem deleteNote_preserves_other (ctx : ReqCtx) (st : NotesState) (id : Nat)
    (tf : TenantFilter)
    (hids : (st.notes.map Note.id).Nodup) :
    ∀ n ∈ st.notes, n.account ≠ tf.account →
      n ∈ (deleteNote ctx st id tf).2.notes := by
  intro n hn hacc
  cases hfind : findNote st.notes id tf with
  | none => simp only [deleteNote, hfind]; exact hn
  | some note =>
    obtain ⟨hnotemem, -, hnoteacc, -, -⟩ := findNote_some _ _ _ _ hfind
    have hne : n.id ≠ note.id := by
      intro hid
      exact hacc ((congrArg Note.account (nodup_map_id_inj st.notes hids n hn note hnotemem hid)).trans hnoteacc)
    simp only [deleteNote, hfind]
    by_cases hown : ctx.role ≠ RoleName.admin ∧ note.user ≠ ctx.userId
    · rw [if_pos hown]; exact hn
    · rw [if_neg hown]
      exact List.mem_map.mpr ⟨n, hn, by rw [if_neg hne]⟩

/-- Every note returned by the getNotes query belongs to the filter's account. -/
theorem getNotes_scope (notes : List Note) (tags : List Tag) (tf : TenantFilter)
    (searchMatch : Option (Note → Bool)) (tagNames : Option (List String))
    (page limit : Nat) :
    ∀ n ∈ getNotes notes tags tf searchMatch tagNames page limit,
      n.account = tf.account := by
  intro n hn
  simp only [getNotes] at hn
  have h2 := List.drop_subset _ _ (List.take_subset _ _ hn)
  have h3 := (List.mem_filter.mp h2).2
  simp only [Bool.and_eq_true, decide_eq_true_eq] at h3
  exact h3.1.1.1.1

/-- Every note returned by getMyNotes belongs to the caller's account and is
owned by the caller. -/
theorem getMyNotes_scope (ctx : ReqCtx) (notes : List Note) (tags : List Tag)
    (searchMatch : Option (Note → Bool)) (tagNames : Option (List String))
    (page limit : Nat) :
    ∀ n ∈ getMyNotes ctx notes tags searchMatch tagNames page limit,
      n.account = ctx.accountId ∧ n.user = ctx.userId := by
  intro n hn
  cases tagNames with
  | none =>
    simp only [getMyNotes] at hn
    have h2 := List.drop_subset _ _ (List.take_subset _ _ hn)
    have h3 := (List.mem_filter.mp h2).2
    simp only [Bool.and_eq_true, decide_eq_true_eq] at h3
    exact ⟨h3.1.1.1, h3.1.1.2⟩
  | some names =>
    simp only [getMyNotes] at hn
    split at hn
    · simp at hn
    · have h2 := List.drop_subset _ _ (List.take_subset _ _ hn)
      have h3 := (List.mem_filter.mp h2).2
      simp only [Bool.and_eq_true, decide_eq_true_eq] at h3
      exact ⟨h3.1.1.1.1, h3.1.1.1.2⟩

/-- C4: every note that a note operation (create, list, my-notes, get by id,
update, delete) reads, returns or mutates belongs to the authenticated
account, and a request with a valid token for account A using the id of a
note of another account B yields NotFound and leaves B's data unchanged. -/
theorem tenant_isolation (ctx : ReqCtx) (st : NotesState) (id : Nat)
    (title description : String) (tagNames : List String)
    (titleU descriptionU : Option String) (tagNamesU : Option (List String))
    (searchMatch : Option (Note → Bool)) (tagNamesQ : Option (List String))
    (page limit : Nat)
    (hids : (st.notes.map Note.id).Nodup) :
    (∀ n ∈ (routeCreateNote ctx st title description tagNames).2.notes,
        n ∈ st.notes ∨ n.account = ctx.accountId) ∧
    (∀ n ∈ routeGetNotes ctx st searchMatch tagNamesQ page limit,
        n.account = ctx.accountId) ∧
    (∀ n ∈ getMyNotes ctx st.notes st.tags searchMatch tagNamesQ page limit,
        n.account = ctx.accountId ∧ n.user = ctx.userId) ∧
    (∀ n, routeGetNoteById ctx st.notes id = some n → n.account = ctx.accountId) ∧
    (∀ n ∈ (routeUpdateNote ctx st id titleU descriptionU tagNamesU).2.notes,
        n ∈ st.notes ∨ n.account = ctx.accountId) ∧
    (∀ n ∈ st.notes, n.account ≠ ctx.accountId →
        n ∈ (routeUpdateNote ctx st id titleU descriptionU tagNamesU).2.notes) ∧
    (∀ n ∈ (routeDeleteNote ctx st id).2.notes,
        n ∈ st.notes ∨ n.account = ctx.accountId) ∧
    (∀ n ∈ st.notes, n.account ≠ ctx.accountId →
        n ∈ (routeDeleteNote ctx st id).2.notes) ∧
    ((∀ n ∈ st.notes, n.id = id → n.account ≠ ctx.accountId) →
      routeGetNoteById ctx st.notes id = none ∧
      routeUpdateNote ctx st id titleU descriptionU tagNamesU = (.notFound, st) ∧
      routeDeleteNote ctx st id = (.notFound, st)) := by
  refine ⟨?_, ?_, ?_, ?_, ?_, ?_, ?_, ?_, ?_⟩
  · intro n hn
    simp only [routeCreateNote] at hn
    split at hn
    · exact Or.inl hn
    · split at hn
      · exact Or.inl hn
      · simp only [List.mem_append, List.mem_singleton] at hn
        rcases hn with h | h
        · exact Or.inl h
        · subst h
          exact Or.inr rfl
  · intro n hn
    exact getNotes_scope st.notes st.tags (ensureTenantIsolation ctx)
      searchMatch tagNamesQ page limit n hn
  · exact getMyNotes_scope ctx st.notes st.tags searchMatch tagNamesQ page limit
  · intro n h
    exact ((findNote_some _ _ _ _ h).2.2.1).trans (notesIdRouteFilter_account ctx)
  · intro n hn
    rcases updateNote_notes_scope ctx st id (notesIdRouteFilter ctx)
        titleU descriptionU tagNamesU n hn with h | h
    · exact Or.inl h
    · exact Or.inr (h.trans (notesIdRouteFilter_account ctx))
  · intro n hn hacc
    exact updateNote_preserves_other ctx st id (notesIdRouteFilter ctx)
      titleU descriptionU tagNamesU hids n hn
      (fun h => hacc (h.trans (notesIdRouteFilter_account ctx)))
  · intro n hn
    rcases deleteNote_notes_scope ctx st id (notesIdRouteFilter ctx) hids n hn with h | h
    · exact Or.inl h
    · exact Or.inr (h.trans (notesIdRouteFilter_account ctx))
  · intro n hn hacc
    exact deleteNote_preserves_other ctx st id (notesIdRouteFilter ctx) hids n hn
      (fun h => hacc (h.trans (notesIdRouteFilter_account ctx)))
  · intro hall
    have hfind : findNote st.notes id (notesIdRouteFilter ctx) = none := by
      refine findNote_eq_none _ _ _ ?_
      intro n hn hid hacc _ _
      exact hall n hn hid (hacc.trans (notesIdRouteFilter_account ctx))
    refine ⟨hfind, ?_, ?_⟩
    · simp only [routeUpdateNote, updateNote, hfind]
    · simp only [routeDeleteNote, deleteNote, hfind]

/-- Witness for C4 at a member of account 1 probing account 2's note id 5. -/
theorem tenant_isolation_witness :
    routeGetNoteById ⟨10, 1, .member⟩
      [⟨5, 2, 20, "b", "", [], false⟩] 5 = none ∧
    routeUpdateNote ⟨10, 1, .member⟩
      ⟨registerAccount 1 "acme", [⟨5, 2, 20, "b", "", [], false⟩], []⟩ 5
      none none none =
      (.notFound, ⟨registerAccount 1 "acme", [⟨5, 2, 20, "b", "", [], false⟩], []⟩) ∧
    routeDeleteNote ⟨10, 1, .member⟩
      ⟨registerAccount 1 "acme", [⟨5, 2, 20, "b", "", [], false⟩], []⟩ 5 =
      (.notFound, ⟨registerAccount 1 "acme", [⟨5, 2, 20, "b", "", [], false⟩], []⟩) :=
  (tenant_isolation ⟨10, 1, .member⟩
    ⟨registerAccount 1 "acme", [⟨5, 2, 20, "b", "", [], false⟩], []⟩ 5
    "" "" [] none none none none none 1 10
    (by decide)).2.2.2.2.2.2.2.2 (by decide)

/-- C5: under the /notes/:id chain (authenticate, ensureTenantIsolation,
requireMember, requireOwnershipOrAdmin) a non-admin acting on a same-tenant
note owned by another user gets NotFound, never Forbidden; the explicit
ownership Forbidden branches of updateNote and deleteNote are unreachable
because the ownership-augmented filter already excludes the note from the
lookup. -/
theorem member_cross_owner_notFound (ctx : ReqCtx) (st : NotesState) (id : Nat)
    (title description : Option String) (tagNames : Option (List String))
    (hrole : ctx.role ≠ .admin) :
    (routeUpdateNote ctx st id title description tagNames).1 ≠ .forbiddenOwnership ∧
    (routeDeleteNote ctx st id).1 ≠ .forbiddenOwnership ∧
    ((∃ n ∈ st.notes, n.id = id ∧ n.account = ctx.accountId ∧
        n.isDeleted = false ∧ n.user ≠ ctx.userId) →
      (∀ n ∈ st.notes, n.id = id → n.user ≠ ctx.userId) →
      routeGetNoteById ctx st.notes id = none ∧
      routeUpdateNote ctx st id title description tagNames = (.notFound, st) ∧
      routeDeleteNote ctx st id = (.notFound, st)) := by
  refine ⟨?_, ?_, ?_⟩
  · simp only [routeUpdateNote, updateNote]
    split
    · simp
    case _ note hfind =>
      have huser := (findNote_some _ _ _ _ hfind).2.2.2.1 ctx.userId
        (notesIdRouteFilter_user ctx hrole)
      rw [if_neg (by intro hcon; exact hcon.2 huser)]
      split
      · split
        · simp
        · exact finishUpdate_fst ctx st note _ description tagNames
      · exact finishUpdate_fst ctx st note none description tagNames
  · simp only [routeDeleteNote, deleteNote]
    split
    · simp
    case _ note hfind =>
      have huser := (findNote_some _ _ _ _ hfind).2.2.2.1 ctx.userId
        (notesIdRouteFilter_user ctx hrole)
      rw [if_neg (by intro hcon; exact hcon.2 huser)]
      simp
  · intro _ hall
    have hfind : findNote st.notes id (notesIdRouteFilter ctx) = none := by
      refine findNote_eq_none _ _ _ ?_
      intro n hn hid _ hm _
      rw [TenantFilter.userMatches, notesIdRouteFilter_user ctx hrole] at hm
      simp only [Option.all_some, decide_eq_true_eq] at hm
      exact hall n hn hid hm
    refine ⟨hfind, ?_, ?_⟩
    · simp only [routeUpdateNote, updateNote, hfind]
    · simp only [routeDeleteNote, deleteNote, hfind]

/-- Witness for C5 at a member of account 1 probing a same-tenant note owned
by another user. -/
theorem member_cross_owner_notFound_witness :
    routeGetNoteById ⟨10, 1, .member⟩
      [⟨5, 1, 20, "b", "", [], false⟩] 5 = none ∧
    routeUpdateNote ⟨10, 1, .member⟩
      ⟨registerAccount 1 "acme", [⟨5, 1, 20, "b", "", [], false⟩], []⟩ 5
      none none none =
      (.notFound, ⟨registerAccount 1 "acme", [⟨5, 1, 20, "b", "", [], false⟩], []⟩) ∧
    routeDeleteNote ⟨10, 1, .member⟩
      ⟨registerAccount 1 "acme", [⟨5, 1, 20, "b", "", [], false⟩], []⟩ 5 =
      (.notFound, ⟨registerAccount 1 "acme", [⟨5, 1, 20, "b", "", [], false⟩], []⟩) :=
  (member_cross_owner_notFound ⟨10, 1, .member⟩
    ⟨registerAccount 1 "acme", [⟨5, 1, 20, "b", "", [], false⟩], []⟩ 5
    none none none (by decide)).2.2 (by decide) (by decide)

/-- The Subscription document, from src/unnamed/part_003. -/
structure Subscription where
  id : Nat
  account : Nat
  plan : Plan
  status : SubStatus
  startDate : Nat
  endDate : Option Nat
  cancelledAt : Option Nat
deriving DecidableEq, Repr

/-- The Payment document, from src/src/models/Payment.js. -/
structure Payment where
  id : Nat
  account : Nat
  subscription : Option Nat
  razorpayOrderId : String
  razorpayPaymentId : Option String
  amount : Int
  status : PaymentStatus
  method : String
  errorDescription : Option String
deriving DecidableEq, Repr

/-- The billing state a subscription request touches: the tenant's account
document plus the subscription and payment collections (which may also hold
other tenants' documents). -/
structure BillingState where
  account : Account
  subs : List Subscription
  payments : List Payment
deriving DecidableEq, Repr

/-- verifyPaymentSignature (src/src/config/razorpay.js lines 33-46): the
expected signature is the HMAC-SHA256 of "orderId|paymentId" under the shared
Razorpay key secret, compared with the supplied one. The HMAC itself is the
external crypto primitive, passed in as a function. -/
def verifyPaymentSignature (hmac : String → String)
    (orderId paymentId signature : String) : Bool :=
  decide (hmac (orderId ++ "|" ++ paymentId) = signature)

/-- Mongoose-style save of a modified payment document back into the store. -/
def updatePayment (payments : List Payment) (pid : Nat) (f : Payment → Payment) :
    List Payment :=
  payments.map (fun p => if p.id = pid then f p else p)

/-- Mongoose-style save of a modified subscription document back into the
store. -/
def updateSub (subs : List Subscription) (sid : Nat)
    (f : Subscription → Subscription) : List Subscription :=
  subs.map (fun s => if s.id = sid then f s else s)

/-- The Subscription.findOne lookup on account and status active, shared by
getSubscription, verifyPaymentAndUpgrade and cancelSubscription. -/
def findActiveSub (subs : List Subscription) (accountId : Nat) : Option Subscription :=
  subs.find? (fun s => decide (s.account = accountId ∧ s.status = .active))

/-- The Payment.findOne of verifyPaymentAndUpgrade: local id, account, gateway
order id and status pending all at once. -/
def findPendingPayment (payments : List Payment) (accountId paymentId : Nat)
    (orderId : String) : Option Payment :=
  payments.find? (fun p => decide (p.id = paymentId ∧ p.account = accountId ∧
    p.razorpayOrderId = orderId ∧ p.status = .pending))

/-- The HTTP outcome of POST /subscription/verify-payment: 400 for missing
fields, 404 for no pending payment, 400 for a bad signature, 200 on upgrade. -/
inductive VerifyResult where
  | missingFields
  | paymentNotFound
  | verificationFailed
  | upgraded (subId : Nat)
deriving DecidableEq, Repr

/-- 365 days in milliseconds: the end-date offset of the one-time-payment
subscription (365 * 24 * 60 * 60 * 1000). -/
def yearMs : Nat := 365 * 24 * 60 * 60 * 1000

/-- verifyPaymentAndUpgrade (subscription controller, lines 530-648 of
src/src/controllers/noteController.js): field presence checks, pending-payment
lookup, signature verification — a mismatch marks the payment failed — then
the sequential writes: payment success with the gateway-reported method,
cancellation of the existing active subscription if one is found, creation of
the pro subscription running a year from now, linking the payment to it, and
the account upgrade. now is Date.now() in ms, freshSubId the id the store
allocates for the new subscription, fetchedMethod the method reported by the
gateway's payment fetch. -/
def verifyPaymentAndUpgrade (hmac : String → String) (fetchedMethod : String)
    (now freshSubId : Nat)
    (orderId gatewayPaymentId signature : Option String) (paymentId : Option Nat)
    (st : BillingState) : VerifyResult × BillingState :=
  match orderId, gatewayPaymentId, signature, paymentId with
  | some oid, some gpid, some sig, some pid =>
    if oid = "" ∨ gpid = "" ∨ sig = "" then (.missingFields, st)
    else
      match findPendingPayment st.payments st.account.id pid oid with
      | none => (.paymentNotFound, st)
      | some payment =>
        if ¬ verifyPaymentSignature hmac oid gpid sig then
          (.verificationFailed,
            { st with
              payments := updatePayment st.payments payment.id
                (fun p => { p with status := .failed, errorDescription := some "Invalid payment signature" }) })
        else
          let payments1 := updatePayment st.payments payment.id
            (fun p => { p with razorpayPaymentId := some gpid, status := .success, method := fetchedMethod })
          let subs1 :=
            match findActiveSub st.subs st.account.id with
            | some existing => updateSub st.subs existing.id
                (fun s => { s with status := .cancelled, cancelledAt := some now })
            | none => st.subs
          let newSub : Subscription :=
            { id := freshSubId, account := st.account.id, plan := .pro,
              status := .active, startDate := now, endDate := some (now + yearMs),
              cancelledAt := none }
          let payments2 := updatePayment payments1 payment.id
            (fun p => { p with subscription := some freshSubId })
          (.upgraded freshSubId,
            { account :=
                { st.account.upgradeToPro with currentSubscription := some freshSubId },
              subs := subs1 ++ [newSub],
              payments := payments2 })
  | _, _, _, _ => (.missingFields, st)

/-- The HTTP outcome of POST /subscription/cancel: 200 or 404 (no active
subscription). -/
inductive CancelResult where
  | cancelled (subId : Nat)
  | noActiveSub
deriving DecidableEq, Repr

/-- cancelSubscription (subscription controller, lines 709-751): requires an
active subscription (else 404 and no change), marks it cancelled with a
timestamp via subscription.cancel(), and immediately downgrades the account
to the free plan with limit 3, clearing currentSubscription. -/
def cancelSubscription (now : Nat) (st : BillingState) : CancelResult × BillingState :=
  match findActiveSub st.subs st.account.id with
  | none => (.noActiveSub, st)
  | some subscription =>
    (.cancelled subscription.id,
      { st with
        subs := updateSub st.subs subscription.id
          (fun s => { s with status := .cancelled, cancelledAt := some now }),
        account := { st.account with plan := .free, limit := accountFreeLimit, currentSubscription := none } })

/-- Unpacking a successful active-subscription lookup. -/
theorem findActiveSub_some (subs : List Subscription) (aid : Nat) (s : Subscription)
    (h : findActiveSub subs aid = some s) :
    s ∈ subs ∧ s.account = aid ∧ s.status = .active := by
  have hmem := List.mem_of_find?_eq_some h
  have hp := List.find?_some h
  simp only [decide_eq_true_eq] at hp
  exact ⟨hmem, hp.1, hp.2⟩

/-- A failed active-subscription lookup means no stored subscription of the
account is active. -/
theorem findActiveSub_none (subs : List Subscription) (aid : Nat)
    (h : findActiveSub subs aid = none) :
    ∀ s ∈ subs, s.account = aid → s.status ≠ .active := by
  rw [findActiveSub, List.find?_eq_none] at h
  intro s hs hacc hact
  exact h s hs (by simp [hacc, hact])

/-- Unpacking a successful pending-payment lookup. -/
theorem findPendingPayment_some (payments : List Payment) (aid pid : Nat)
    (oid : String) (p : Payment)
    (h : findPendingPayment payments aid pid oid = some p) :
    p ∈ payments ∧ p.id = pid ∧ p.account = aid ∧
      p.razorpayOrderId = oid ∧ p.status = .pending := by
  have hmem := List.mem_of_find?_eq_some h
  have hp := List.find?_some h
  simp only [decide_eq_true_eq] at hp
  exact ⟨hmem, hp.1, hp.2.1, hp.2.2.1, hp.2.2.2⟩

/-- After cancelling the single active subscription of the account, no stored
subscription of the account is still active. -/
theorem filter_active_after_cancel (subs : List Subscription) (aid : Nat)
    (ex : Subscription) (now : Nat)
    (hone : ∀ s ∈ subs, s.account = aid → s.status = .active → s = ex) :
    (updateSub subs ex.id
        (fun s => { s with status := .cancelled, cancelledAt := some now })).filter
      (fun s => decide (s.account = aid ∧ s.status = .active)) = [] := by
  rw [List.filter_eq_nil_iff]
  intro x hx
  obtain ⟨y, hy, hfy⟩ := List.mem_map.mp hx
  by_cases hid : y.id = ex.id
  · rw [if_pos hid] at hfy
    subst hfy
    simp
  · rw [if_neg hid] at hfy
    subst hfy
    simp only [decide_eq_true_eq, not_and]
    intro hacc hact
    exact absurd (congrArg Subscription.id (hone y hy hacc hact)) hid

/-- Adding or overwriting fields of a stored payment keeps it in the store. -/
theorem updatePayment_mem (payments : List Payment) (p : Payment) (pid : Nat)
    (f : Payment → Payment) (hp : p ∈ payments) (hid : p.id = pid) :
    f p ∈ updatePayment payments pid f :=
  List.mem_map.mpr ⟨p, hp, by rw [if_pos hid]⟩

/-- Computation of the fully verified upgrade call. -/
theorem verifyPayment_success_eq (hmac : String → String) (fetchedMethod : String)
    (now freshSubId : Nat) (oid gpid sig : String) (pid : Nat)
    (st : BillingState) (payment : Payment)
    (hoid : oid ≠ "") (hgpid : gpid ≠ "") (hsig : sig ≠ "")
    (hfind : findPendingPayment st.payments st.account.id pid oid = some payment)
    (hmatch : hmac (oid ++ "|" ++ gpid) = sig) :
    verifyPaymentAndUpgrade hmac fetchedMethod now freshSubId
      (some oid) (some gpid) (some sig) (some pid) st =
    (.upgraded freshSubId,
      { account := { st.account.upgradeToPro with currentSubscription := some freshSubId },
        subs :=
          (match findActiveSub st.subs st.account.id with
            | some existing => updateSub st.subs existing.id
                (fun s => { s with status := .cancelled, cancelledAt := some now })
            | none => st.subs) ++
            [{ id := freshSubId, account := st.account.id, plan := .pro,
               status := .active, startDate := now, endDate := some (now + yearMs),
               cancelledAt := none }],
        payments := updatePayment
          (updatePayment st.payments payment.id
            (fun p => { p with razorpayPaymentId := some gpid, status := .success, method := fetchedMethod }))
          payment.id (fun p => { p with subscription := some freshSubId }) }) := by
  have hcond : ¬(oid = "" ∨ gpid = "" ∨ sig = "") := by simp [hoid, hgpid, hsig]
  have hsigv : verifyPaymentSignature hmac oid gpid sig = true := by
    simp [verifyPaymentSignature, hmatch]
  simp only [verifyPaymentAndUpgrade]
  rw [if_neg hcond]
  simp only [hfind]
  rw [if_neg (fun hc => hc hsigv)]

/-- C1: a verified payment call — pending payment found, supplied signature
equal to the HMAC of orderId|paymentId — makes the payment successful and
linked to the newly created subscription, cancels what was active before,
leaves exactly one active subscription for the account (the new pro one from
now to now + 365 days) and puts the account on plan pro with unlimited (-1)
quota referencing the new subscription. -/
theorem verifyPayment_success_upgrade (hmac : String → String)
    (fetchedMethod : String) (now freshSubId : Nat)
    (oid gpid sig : String) (pid : Nat) (st : BillingState) (payment : Payment)
    (res : VerifyResult × BillingState)
    (hoid : oid ≠ "") (hgpid : gpid ≠ "") (hsig : sig ≠ "")
    (hfind : findPendingPayment st.payments st.account.id pid oid = some payment)
    (hmatch : hmac (oid ++ "|" ++ gpid) = sig)
    (hone : ∀ s1 ∈ st.subs, ∀ s2 ∈ st.subs, s1.account = st.account.id →
      s2.account = st.account.id → s1.status = .active → s2.status = .active → s1 = s2)
    (hres : verifyPaymentAndUpgrade hmac fetchedMethod now freshSubId
      (some oid) (some gpid) (some sig) (some pid) st = res) :
    res.1 = .upgraded freshSubId ∧
    ({ payment with razorpayPaymentId := some gpid, status := .success, method := fetchedMethod, subscription := some freshSubId } : Payment) ∈
      res.2.payments ∧
    (∀ q ∈ res.2.payments, q.id = payment.id →
      q.status = .success ∧ q.subscription = some freshSubId) ∧
    (∀ s ∈ st.subs, s.account = st.account.id → s.status = .active →
      ({ s with status := .cancelled, cancelledAt := some now } : Subscription) ∈
        res.2.subs) ∧
    res.2.subs.filter (fun s => decide (s.account = st.account.id ∧ s.status = .active)) =
      [{ id := freshSubId, account := st.account.id, plan := .pro, status := .active,
         startDate := now, endDate := some (now + yearMs), cancelledAt := none }] ∧
    res.2.account.plan = .pro ∧
    res.2.account.limit = -1 ∧
    res.2.account.currentSubscription = some freshSubId ∧
    res.2.account.noteCount = st.account.noteCount := by
  subst hres
  rw [verifyPayment_success_eq hmac fetchedMethod now freshSubId oid gpid sig pid st
    payment hoid hgpid hsig hfind hmatch]
  obtain ⟨hpmem, hpid, -, -, -⟩ := findPendingPayment_some _ _ _ _ _ hfind
  refine ⟨rfl, ?_, ?_, ?_, ?_, rfl, rfl, rfl, rfl⟩
  · exact updatePayment_mem _ _ _ _ (updatePayment_mem _ _ _ _ hpmem rfl) rfl
  · intro q hq hqid
    simp only [updatePayment] at hq
    obtain ⟨y, hy, hfy⟩ := List.mem_map.mp hq
    obtain ⟨z, hz, hfz⟩ := List.mem_map.mp hy
    by_cases hzid : z.id = payment.id
    · rw [if_pos hzid] at hfz
      subst hfz
      rw [if_pos hzid] at hfy
      subst hfy
      exact ⟨rfl, rfl⟩
    · rw [if_neg hzid] at hfz
      subst hfz
      rw [if_neg hzid] at hfy
      subst hfy
      exact absurd hqid hzid
  · intro s hs hacc hact
    cases hactive : findActiveSub st.subs st.account.id with
    | none => exact absurd hact (findActiveSub_none _ _ hactive s hs hacc)
    | some ex =>
      obtain ⟨hexmem, hexacc, hexact⟩ := findActiveSub_some _ _ _ hactive
      have hsex : s = ex := hone s hs ex hexmem hacc hexacc hact hexact
      refine List.mem_append_left _ ?_
      exact List.mem_map.mpr ⟨s, hs, by rw [if_pos (congrArg Subscription.id hsex)]⟩
  · cases hactive : findActiveSub st.subs st.account.id with
    | none =>
      have hnil : st.subs.filter
          (fun s => decide (s.account = st.account.id ∧ s.status = .active)) = [] := by
        rw [List.filter_eq_nil_iff]
        intro s hs
        simp only [decide_eq_true_eq, not_and]
        exact fun hacc => findActiveSub_none _ _ hactive s hs hacc
      rw [List.filter_append, hnil, List.nil_append]
      simp
    | some ex =>
      obtain ⟨hexmem, hexacc, hexact⟩ := findActiveSub_some _ _ _ hactive
      have hnil := filter_active_after_cancel st.subs st.account.id ex now
        (fun s hs hacc hact => hone s hs ex hexmem hacc hexacc hact hexact)
      rw [List.filter_append, hnil, List.nil_append]
      simp

/-- Witness for C1: a pending 999 INR payment of account 1 verified with the
matching signature, upgrading over an existing active subscription. -/
theorem verifyPayment_success_upgrade_witness :
    (verifyPaymentAndUpgrade (fun s => s) "card" 1000 9
      (some "order1") (some "pay1") (some "order1|pay1") (some 7)
      ⟨registerAccount 1 "acme",
        [⟨3, 1, Plan.pro, SubStatus.active, 0, some 5, none⟩],
        [⟨7, 1, none, "order1", none, 999, PaymentStatus.pending, "razorpay", none⟩]⟩).1 =
      .upgraded 9 :=
  (verifyPayment_success_upgrade (fun s => s) "card" 1000 9 "order1" "pay1" "order1|pay1" 7
    ⟨registerAccount 1 "acme",
      [⟨3, 1, Plan.pro, SubStatus.active, 0, some 5, none⟩],
      [⟨7, 1, none, "order1", none, 999, PaymentStatus.pending, "razorpay", none⟩]⟩
    ⟨7, 1, none, "order1", none, 999, PaymentStatus.pending, "razorpay", none⟩ _
    (by decide) (by decide) (by decide) (by decide) (by decide) (by decide) rfl).1

/-- Computation of the forged-signature verification call. -/
theorem verifyPayment_forged_eq (hmac : String → String) (fetchedMethod : String)
    (now freshSubId : Nat) (oid gpid sig : String) (pid : Nat)
    (st : BillingState) (payment : Payment)
    (hoid : oid ≠ "") (hgpid : gpid ≠ "") (hsig : sig ≠ "")
    (hfind : findPendingPayment st.payments st.account.id pid oid = some payment)
    (hmismatch : hmac (oid ++ "|" ++ gpid) ≠ sig) :
    verifyPaymentAndUpgrade hmac fetchedMethod now freshSubId
      (some oid) (some gpid) (some sig) (some pid) st =
    (.verificationFailed,
      { st with
        payments := updatePayment st.payments payment.id
          (fun p => { p with status := .failed, errorDescription := some "Invalid payment signature" }) }) := by
  have hcond : ¬(oid = "" ∨ gpid = "" ∨ sig = "") := by simp [hoid, hgpid, hsig]
  have hsigv : ¬ verifyPaymentSignature hmac oid gpid sig = true := by
    simp [verifyPaymentSignature, hmismatch]
  simp only [verifyPaymentAndUpgrade]
  rw [if_neg hcond]
  simp only [hfind]
  rw [if_pos hsigv]

/-- C2: when the pending payment is found but the supplied signature differs
from the HMAC of orderId|paymentId, the call fails with the 400 verification
error, the payment becomes failed with an error description, and the account
document (plan, limit, noteCount, currentSubscription) and the subscription
collection are untouched — nothing is created or cancelled. -/
theorem verifyPayment_forged_signature (hmac : String → String)
    (fetchedMethod : String) (now freshSubId : Nat)
    (oid gpid sig : String) (pid : Nat) (st : BillingState) (payment : Payment)
    (res : VerifyResult × BillingState)
    (hoid : oid ≠ "") (hgpid : gpid ≠ "") (hsig : sig ≠ "")
    (hfind : findPendingPayment st.payments st.account.id pid oid = some payment)
    (hmismatch : hmac (oid ++ "|" ++ gpid) ≠ sig)
    (hres : verifyPaymentAndUpgrade hmac fetchedMethod now freshSubId
      (some oid) (some gpid) (some sig) (some pid) st = res) :
    res.1 = .verificationFailed ∧
    res.2.account = st.account ∧
    res.2.subs = st.subs ∧
    ({ payment with status := .failed, errorDescription := some "Invalid payment signature" } : Payment) ∈
      res.2.payments ∧
    (∀ q ∈ res.2.payments, q.id = payment.id →
      q.status = .failed ∧ q.errorDescription = some "Invalid payment signature") ∧
    (∀ p ∈ st.payments, p.id ≠ payment.id → p ∈ res.2.payments) := by
  subst hres
  rw [verifyPayment_forged_eq hmac fetchedMethod now freshSubId oid gpid sig pid st
    payment hoid hgpid hsig hfind hmismatch]
  obtain ⟨hpmem, -, -, -, -⟩ := findPendingPayment_some _ _ _ _ _ hfind
  refine ⟨rfl, rfl, rfl, ?_, ?_, ?_⟩
  · exact updatePayment_mem _ _ _ _ hpmem rfl
  · intro q hq hqid
    obtain ⟨z, hz, hfz⟩ := List.mem_map.mp hq
    by_cases hzid : z.id = payment.id
    · rw [if_pos hzid] at hfz
      subst hfz
      exact ⟨rfl, rfl⟩
    · rw [if_neg hzid] at hfz
      subst hfz
      exact absurd hqid hzid
  · intro p hp hpid
    exact List.mem_map.mpr ⟨p, hp, by rw [if_neg hpid]⟩

/-- Witness for C2: the same pending payment presented with a forged
signature. -/
theorem verifyPayment_forged_signature_witness :
    (verifyPaymentAndUpgrade (fun s => s) "card" 1000 9
      (some "order1") (some "pay1") (some "forged") (some 7)
      ⟨registerAccount 1 "acme", [],
        [⟨7, 1, none, "order1", none, 999, PaymentStatus.pending, "razorpay", none⟩]⟩).1 =
      .verificationFailed :=
  (verifyPayment_forged_signature (fun s => s) "card" 1000 9 "order1" "pay1" "forged" 7
    ⟨registerAccount 1 "acme", [],
      [⟨7, 1, none, "order1", none, 999, PaymentStatus.pending, "razorpay", none⟩]⟩
    ⟨7, 1, none, "order1", none, 999, PaymentStatus.pending, "razorpay", none⟩ _
    (by decide) (by decide) (by decide) (by decide) (by decide) rfl).1

/-- C7: with an active subscription, cancelSubscription marks it cancelled
with a timestamp and — independently of its endDate — immediately sets the
account to plan free with the free-tier limit 3 and clears
currentSubscription; without one it fails with 404 and changes nothing. -/
theorem cancelSubscription_downgrade (now : Nat) (st : BillingState) :
    (∀ subscription, findActiveSub st.subs st.account.id = some subscription →
      (cancelSubscription now st).1 = .cancelled subscription.id ∧
      ({ subscription with status := .cancelled, cancelledAt := some now } : Subscription) ∈
        (cancelSubscription now st).2.subs ∧
      (cancelSubscription now st).2.account.plan = .free ∧
      (cancelSubscription now st).2.account.limit = accountFreeLimit ∧
      (cancelSubscription now st).2.account.currentSubscription = none ∧
      (cancelSubscription now st).2.account.noteCount = st.account.noteCount) ∧
    (findActiveSub st.subs st.account.id = none →
      cancelSubscription now st = (.noActiveSub, st)) := by
  constructor
  · intro subscription hfind
    obtain ⟨hmem, -, -⟩ := findActiveSub_some _ _ _ hfind
    simp only [cancelSubscription, hfind]
    refine ⟨trivial, ?_, trivial, trivial, trivial, trivial⟩
    exact List.mem_map.mpr ⟨subscription, hmem, by rw [if_pos rfl]⟩
  · intro hfind
    simp only [cancelSubscription, hfind]

/-- Witness for C7: cancelling an active pro subscription whose endDate is
still far in the future. -/
theorem cancelSubscription_downgrade_witness :
    (cancelSubscription 1000
      ⟨{ registerAccount 1 "acme" with plan := .pro, limit := -1, currentSubscription := some 3 },
        [⟨3, 1, Plan.pro, SubStatus.active, 0, some 999999999, none⟩], []⟩).1 =
      .cancelled 3 ∧
    (cancelSubscription 1000
      ⟨{ registerAccount 1 "acme" with plan := .pro, limit := -1, currentSubscription := some 3 },
        [⟨3, 1, Plan.pro, SubStatus.active, 0, some 999999999, none⟩], []⟩).2.account.plan =
      .free := by
  have h := (cancelSubscription_downgrade 1000
    ⟨{ registerAccount 1 "acme" with plan := .pro, limit := -1, currentSubscription := some 3 },
      [⟨3, 1, Plan.pro, SubStatus.active, 0, some 999999999, none⟩], []⟩).1
    ⟨3, 1, Plan.pro, SubStatus.active, 0, some 999999999, none⟩ (by decide)
  exact ⟨h.1, h.2.2.1⟩

/-- A signed session token of the external jwt library, per the spec's
capability interface: payload (userId, iat and exp in seconds) plus a
signature. -/
structure Token where
  userId : Nat
  iat : Nat
  exp : Nat
  sig : String
deriving DecidableEq, Repr

/-- The decoded payload jwt.verify hands back to the middleware. -/
structure TokenPayload where
  userId : Nat
  iat : Nat
deriving DecidableEq, Repr

/-- The two jwt.verify failures the middleware distinguishes:
JsonWebTokenError (bad signature/format) and TokenExpiredError. -/
inductive JwtError where
  | invalidFormat
  | expired
deriving DecidableEq, Repr

/-- Model of the external jwt.verify capability: the signature must equal the
server's signing function applied to the payload, and the expiry (seconds)
must not have passed at nowMs. -/
def jwtVerify (sign : Nat → Nat → Nat → String) (nowMs : Nat) (t : Token) :
    Except JwtError TokenPayload :=
  if t.sig ≠ sign t.userId t.iat t.exp then .error .invalidFormat
  else if t.exp * 1000 ≤ nowMs then .error .expired
  else .ok ⟨t.userId, t.iat⟩

/-- The User document, from src/src/models/User.js (first schema); password
holds the bcrypt hash, role the resolved role name, tokensInvalidBefore the
invalidation watermark in ms. -/
structure User where
  id : Nat
  account : Nat
  email : String
  password : String
  name : String
  role : RoleName
  isActive : Bool
  isDeleted : Bool
  tokensInvalidBefore : Nat
deriving DecidableEq, Repr

/-- The stores the authenticate middleware and login strategy read. -/
structure AuthDB where
  users : List User
  accounts : List Account
deriving DecidableEq, Repr

/-- Outcome of the authenticate middleware (src/src/middleware/auth.js); every
constructor except ok is sent with HTTP 401. -/
inductive AuthResult where
  | ok (userId accountId : Nat)
  | missingToken
  | invalidToken
  | expiredToken
  | userNotFoundOrInactive
  | tokenInvalidated
  | accountInactive
deriving DecidableEq, Repr

/-- The HTTP status authenticate responds with. -/
def AuthResult.status : AuthResult → Nat
  | .ok _ _ => 200
  | _ => 401

/-- authenticate (src/src/middleware/auth.js lines 8-54): extract the token,
jwt.verify it, load the user, reject missing/inactive/deleted users, reject
tokens issued before the invalidation watermark
(decoded.iat * 1000 < user.tokensInvalidBefore), and reject inactive or
deleted accounts. -/
def authenticate (sign : Nat → Nat → Nat → String) (nowMs : Nat)
    (token : Option Token) (db : AuthDB) : AuthResult :=
  match token with
  | none => .missingToken
  | some t =>
    match jwtVerify sign nowMs t with
    | .error .invalidFormat => .invalidToken
    | .error .expired => .expiredToken
    | .ok payload =>
      match db.users.find? (fun u => decide (u.id = payload.userId)) with
      | none => .userNotFoundOrInactive
      | some user =>
        if ¬ user.isActive ∨ user.isDeleted then .userNotFoundOrInactive
        else if payload.iat * 1000 < user.tokensInvalidBefore then .tokenInvalidated
        else
          match db.accounts.find? (fun a => decide (a.id = user.account)) with
          | none => .accountInactive
          | some account =>
            if ¬ account.isActive ∨ account.isDeleted then .accountInactive
            else .ok user.id account.id

/-- Failures of POST /auth/change-password. -/
inductive ChangePwError where
  | missingFields
  | wrongCurrent
  | sameAsOld
deriving DecidableEq, Repr

/-- changePassword (src/unnamed/part_004 lines 242-284): verifies the current
password, rejects reusing the old one, then stores the new hash and sets
tokensInvalidBefore := now, invalidating every earlier token. comparePw and
hashPw model the external bcrypt capability. -/
def changePassword (comparePw : String → String → Bool) (hashPw : String → String)
    (nowMs : Nat) (currentPassword newPassword : String) (user : User) :
    Except ChangePwError User :=
  if currentPassword = "" ∨ newPassword = "" then .error .missingFields
  else if ¬ comparePw currentPassword user.password then .error .wrongCurrent
  else if comparePw newPassword user.password then .error .sameAsOld
  else .ok { user with password := hashPw newPassword, tokensInvalidBefore := nowMs }

/-- logout (src/unnamed/part_004 lines 290-303): sets tokensInvalidBefore :=
now on the authenticated user. -/
def logout (nowMs : Nat) (user : User) : User :=
  { user with tokensInvalidBefore := nowMs }

/-- Unpacking a successful jwt.verify. -/
theorem jwtVerify_ok (sign : Nat → Nat → Nat → String) (nowMs : Nat) (t : Token)
    (p : TokenPayload) (h : jwtVerify sign nowMs t = .ok p) :
    p = ⟨t.userId, t.iat⟩ ∧ t.sig = sign t.userId t.iat t.exp ∧
      nowMs < t.exp * 1000 := by
  rw [jwtVerify] at h
  split at h
  · cases h
  case _ hsig =>
    split at h
    · cases h
    case _ hexp =>
      cases h
      exact ⟨rfl, not_not.mp hsig, Nat.lt_of_not_le hexp⟩

/-- jwt.verify succeeds on a well-signed, unexpired token. -/
theorem jwtVerify_eq_ok (sign : Nat → Nat → Nat → String) (nowMs : Nat) (t : Token)
    (hsig : t.sig = sign t.userId t.iat t.exp) (hexp : nowMs < t.exp * 1000) :
    jwtVerify sign nowMs t = .ok ⟨t.userId, t.iat⟩ := by
  rw [jwtVerify, if_neg (not_not_intro hsig), if_neg (Nat.not_le.mpr hexp)]

/-- C6: once the user's watermark is past the token's issuance instant — as
change-password and logout set it — authenticate answers 401 for that token
even when it is not expired; and a token is accepted only when its signature
and expiry checks pass and its issuedAt (ms) is not before the watermark. -/
theorem token_watermark_revocation (sign : Nat → Nat → Nat → String)
    (nowMs : Nat) (t : Token) (db : AuthDB) (user : User)
    (hu : db.users.find? (fun u => decide (u.id = t.userId)) = some user) :
    (t.iat * 1000 < user.tokensInvalidBefore →
      (authenticate sign nowMs (some t) db).status = 401) ∧
    (t.sig = sign t.userId t.iat t.exp → nowMs < t.exp * 1000 →
      user.isActive = true → user.isDeleted = false →
      t.iat * 1000 < user.tokensInvalidBefore →
      authenticate sign nowMs (some t) db = .tokenInvalidated) ∧
    (∀ uid aid, authenticate sign nowMs (some t) db = .ok uid aid →
      t.sig = sign t.userId t.iat t.exp ∧ nowMs < t.exp * 1000 ∧
      user.tokensInvalidBefore ≤ t.iat * 1000) ∧
    (logout nowMs user).tokensInvalidBefore = nowMs ∧
    (∀ cmp hsh cur new u2, changePassword cmp hsh nowMs cur new user = .ok u2 →
      u2.tokensInvalidBefore = nowMs) := by
  refine ⟨?_, ?_, ?_, rfl, ?_⟩
  · intro hwm
    cases hjv : jwtVerify sign nowMs t with
    | error e =>
      cases e <;> simp [authenticate, hjv, AuthResult.status]
    | ok p =>
      obtain ⟨hp, -, -⟩ := jwtVerify_ok sign nowMs t p hjv
      subst hp
      simp only [authenticate, hjv, hu]
      by_cases hact : ¬ user.isActive ∨ user.isDeleted
      · rw [if_pos hact]
        rfl
      · rw [if_neg hact, if_pos hwm]
        rfl
  · intro hsig hexp hact hdel hwm
    simp only [authenticate, jwtVerify_eq_ok sign nowMs t hsig hexp, hu]
    rw [if_neg (by simp [hact, hdel]), if_pos hwm]
  · intro uid aid h
    cases hjv : jwtVerify sign nowMs t with
    | error e =>
      cases e <;> simp [authenticate, hjv] at h
    | ok p =>
      obtain ⟨hp, hsig, hexp⟩ := jwtVerify_ok sign nowMs t p hjv
      subst hp
      simp only [authenticate, hjv, hu] at h
      refine ⟨hsig, hexp, ?_⟩
      by_cases hact : ¬ user.isActive ∨ user.isDeleted
      · rw [if_pos hact] at h
        cases h
      · rw [if_neg hact] at h
        by_cases hwm : t.iat * 1000 < user.tokensInvalidBefore
        · rw [if_pos hwm] at h
          cases h
        · exact Nat.le_of_not_lt hwm
  · intro cmp hsh cur new u2 h
    rw [changePassword] at h
    split at h
    · cases h
    · split at h
      · cases h
      · split at h
        · cases h
        · cases h
          rfl

/-- Witness for C6: a well-signed, unexpired token issued at second 10 is
rejected after the watermark moved to ms 20000, and logout moves the
watermark. -/
theorem token_watermark_revocation_witness :
    (authenticate (fun a b c => String.append (toString a) (String.append (toString b) (toString c)))
      50000
      (some ⟨1, 10, 999, String.append "1" (String.append "10" "999")⟩)
      ⟨[⟨1, 1, "e@x.com", "h", "n", RoleName.admin, true, false, 20000⟩],
        [registerAccount 1 "acme"]⟩).status = 401 ∧
    (logout 50000 ⟨1, 1, "e@x.com", "h", "n", RoleName.admin, true, false, 20000⟩).tokensInvalidBefore = 50000 := by
  have h := token_watermark_revocation
    (fun a b c => String.append (toString a) (String.append (toString b) (toString c)))
    50000 ⟨1, 10, 999, String.append "1" (String.append "10" "999")⟩
    ⟨[⟨1, 1, "e@x.com", "h", "n", RoleName.admin, true, false, 20000⟩],
      [registerAccount 1 "acme"]⟩
    ⟨1, 1, "e@x.com", "h", "n", RoleName.admin, true, false, 20000⟩
    (by decide)
  exact ⟨h.1 (by decide), h.2.2.2.1⟩

/-- Outcome of POST /auth/invite. -/
inductive InviteResult where
  | missingFields
  | conflict
  | created (u : User)
deriving DecidableEq, Repr

/-- inviteUser (src/unnamed/part_004 lines 168-236): validates fields (the
role check is total over the closed role enum), rejects an existing
same-account user with that email, and creates the invited member with
isActive := false and the hashed temporary password. freshId models the
store's id allocation, nowMs the tokensInvalidBefore default of Date.now,
hashPw the bcrypt pre-save hook. -/
def inviteUser (hashPw : String → String) (freshId nowMs : Nat) (adminUser : User)
    (email name : String) (role : RoleName) (tempPassword : String)
    (users : List User) : InviteResult × List User :=
  if email = "" ∨ name = "" then (.missingFields, users)
  else
    match users.find? (fun u => decide (u.email = toLowerStr email ∧
        u.account = adminUser.account ∧ u.isDeleted = false)) with
    | some _ => (.conflict, users)
    | none =>
      let newUser : User :=
        { id := freshId, account := adminUser.account, email := toLowerStr email,
          password := hashPw tempPassword, name := name, role := role,
          isActive := false, isDeleted := false, tokensInvalidBefore := nowMs }
      (.created newUser, users ++ [newUser])

/-- Outcome of POST /auth/login; the login controller sends 401 for every
failure the LocalStrategy reports. -/
inductive LoginResult where
  | ok (userId : Nat)
  | invalidCredentials
  | accountInactive
deriving DecidableEq, Repr

/-- The LocalStrategy of the passport config (src/src/routes/notes.js lines
151-194) composed with the login controller: find the user by lowercased
email with isActive true and isDeleted false (otherwise "Invalid email or
password"), check the account is active, verify the password. -/
def login (comparePw : String → String → Bool) (email password : String)
    (db : AuthDB) : LoginResult :=
  match db.users.find? (fun u => decide (u.email = toLowerStr email ∧
      u.isActive = true ∧ u.isDeleted = false)) with
  | none => .invalidCredentials
  | some user =>
    match db.accounts.find? (fun a => decide (a.id = user.account)) with
    | none => .accountInactive
    | some account =>
      if ¬ account.isActive ∨ account.isDeleted then .accountInactive
      else if ¬ comparePw password user.password then .invalidCredentials
      else .ok user.id

/-- C10: inviteUser creates its user with isActive = false; login only
authenticates isActive users, so logging in with the invited email fails as
Invalid credentials (regardless of the password supplied, in particular with
the returned temporary one) as long as every stored user with that email is
inactive; and the user-mutating endpoints of the codebase (change-password,
logout) never change isActive, so no endpoint sets it true. -/
theorem invited_user_cannot_login (hashPw : String → String) (freshId nowMs : Nat)
    (adminUser : User) (email name : String) (role : RoleName)
    (tempPassword : String) (users : List User) (u : User) (users2 : List User)
    (hinv : inviteUser hashPw freshId nowMs adminUser email name role tempPassword
      users = (.created u, users2)) :
    u.isActive = false ∧
    users2 = users ++ [u] ∧
    (∀ cmp pw accounts,
      (∀ v ∈ users, v.email = toLowerStr email → v.isActive = false) →
      login cmp email pw ⟨users2, accounts⟩ = .invalidCredentials) ∧
    (∀ cmp hsh cur new v w, changePassword cmp hsh nowMs cur new v = .ok w →
      w.isActive = v.isActive) ∧
    (∀ v, (logout nowMs v).isActive = v.isActive) := by
  rw [inviteUser] at hinv
  split at hinv
  · cases hinv
  · split at hinv
    · cases hinv
    · rw [Prod.mk.injEq] at hinv
      obtain ⟨hcreated, husers⟩ := hinv
      cases hcreated
      refine ⟨rfl, husers.symm, ?_, ?_, fun v => rfl⟩
      · intro cmp pw accounts hall
        rw [login]
        have hnone : users2.find? (fun v => decide (v.email = toLowerStr email ∧
            v.isActive = true ∧ v.isDeleted = false)) = none := by
          rw [List.find?_eq_none]
          intro v hv
          rw [← husers] at hv
          simp only [decide_eq_true_eq, not_and]
          intro hemail hact
          rcases List.mem_append.mp hv with hmem | hmem
          · exact absurd hact (by simp [hall v hmem hemail])
          · simp only [List.mem_singleton] at hmem
            subst hmem
            cases hact
        rw [hnone]
      · intro cmp hsh cur new v w h
        rw [changePassword] at h
        split at h
        · cases h
        · split at h
          · cases h
          · split at h
            · cases h
            · cases h
              rfl

/-- Witness for C10: inviting bob into account 1 and then trying to log in
with the temporary password. -/
theorem invited_user_cannot_login_witness :
    ((inviteUser (fun s => s) 5 0 ⟨1, 1, "a@x.com", "h", "a", RoleName.admin, true, false, 0⟩
        "Bob@X.com" "bob" RoleName.member "temp123" []).2.find?
      (fun v => decide (v.email = toLowerStr "Bob@X.com" ∧
        v.isActive = true ∧ v.isDeleted = false)) = none) ∧
    login (fun p h => decide (p = h)) "Bob@X.com" "temp123"
      ⟨(inviteUser (fun s => s) 5 0 ⟨1, 1, "a@x.com", "h", "a", RoleName.admin, true, false, 0⟩
          "Bob@X.com" "bob" RoleName.member "temp123" []).2,
        [registerAccount 1 "acme"]⟩ = .invalidCredentials := by
  have h := invited_user_cannot_login (fun s => s) 5 0
    ⟨1, 1, "a@x.com", "h", "a", RoleName.admin, true, false, 0⟩
    "Bob@X.com" "bob" RoleName.member "temp123" []
    ⟨5, 1, toLowerStr "Bob@X.com", "temp123", "bob", RoleName.member, false, false, 0⟩
    ((inviteUser (fun s => s) 5 0 ⟨1, 1, "a@x.com", "h", "a", RoleName.admin, true, false, 0⟩
      "Bob@X.com" "bob" RoleName.member "temp123" []).2)
    (by decide)
  refine ⟨by decide, ?_⟩
  exact h.2.2.1 (fun p h2 => decide (p = h2)) "temp123" [registerAccount 1 "acme"] (by decide)

end SaasNotes
